import Mathlib

/-!
Verification of the ShameBot repository (src/src/main.rs, src/src/user.rs).

The development shallowly embeds:
  * the shell-like tokenizer `parse_command_with_quotes` (main.rs, lines 15-45),
  * the file-backed store operations of user.rs (`add_user`, `add_game`,
    `update_total`, `remove_game`, `delete_user`, `get_users`,
    `get_game_total`, `get_user_total_all_games`, `get_user_games`), and
  * the command dispatcher of `EventHandler::message` (main.rs, lines 49-421).

Modelling conventions:
  * The persisted file `../users.json` holds a `Vec<User>`; every store
    operation loads it, works on it, and (on the success path only) saves it
    back.  Each operation is embedded as a pure function from the loaded
    collection to a `StoreResult`: the constructor `StoreResult.ok saved v`
    means the operation reached `save_users_to_file(&users)` with collection
    `saved` and then returned `Ok(v)`; the constructor `StoreResult.err e`
    means the operation returned `Err(...)` early, before any save.
  * Rust `HashMap<String, i32>` is embedded as an association list
    `List (String × Int)`; a map never holds duplicate keys, and the store
    operations are proved to preserve key uniqueness for reachable states.
  * Rust `i32` values are embedded as `Int` together with explicit
    two's-complement wrapping `wrap32` at the one place arithmetic happens
    (`*current_total += additional` in `update_total`, and `.sum()` in
    `get_user_total_all_games`); `str::parse::<i32>` is embedded as
    `parseI32`, which accepts an optional sign followed by ASCII digits and
    rejects out-of-range values.
-/

/-- Fixed troll threshold constant from user.rs line 4. -/
def TROLL_THRESHOLD : Int := 200

/-- Fixed super-troll threshold constant from user.rs line 5. -/
def SUPER_TROLL_THRESHOLD : Int := 500

/-- A user record (user.rs lines 8-12): a name and a map from game name to
total.  The `HashMap<String, i32>` is embedded as an association list. -/
structure User where
  user : String
  games : List (String × Int)
deriving DecidableEq, Repr

/-- The typed error taxonomy of the store.  In user.rs every failure is a
boxed error built from a distinguishing message string; each constructor
corresponds to one family of those messages. -/
inductive StoreError where
  | invalidNumber
  | userNotFound (username : String)
  | gameNotFound (username game : String)
  | alreadyExists (username : String)
  | gameAlreadyExists (username game : String)
deriving DecidableEq, Repr

/-- Result of one mutating store operation.  `ok saved v` means control
reached `save_users_to_file(&users)` with collection `saved` and the function
returned `Ok(v)`; `err e` means the function returned `Err` early, before any
save was attempted. -/
inductive StoreResult (α : Type) where
  | ok (saved : List User) (val : α)
  | err (e : StoreError)
deriving DecidableEq, Repr

/-- The collection that is on disk after an operation: the saved collection
on the success path, the untouched previous collection otherwise. -/
def savedOf {α : Type} (users : List User) : StoreResult α → List User
  | .ok saved _ => saved
  | .err _ => users

/-- Two's-complement wrap-around of `i32` arithmetic. -/
def wrap32 (n : Int) : Int := (n + 2 ^ 31) % 2 ^ 32 - 2 ^ 31

/-- Embedding of Rust `str::parse::<i32>`: an optional `+`/`-` sign followed
by one or more ASCII digits, rejecting the empty digit string and any value
outside the `i32` range. -/
def parseI32 (s : String) : Option Int :=
  match s.data with
  | [] => none
  | c :: cs =>
    let signed : Bool × List Char :=
      if c = '-' then (true, cs)
      else if c = '+' then (false, cs)
      else (false, c :: cs)
    let ds := signed.2
    if ds.isEmpty then none
    else if ds.all (fun d => d.isDigit) then
      let n : Nat := ds.foldl (fun acc d => acc * 10 + (d.toNat - 48)) 0
      let v : Int := if signed.1 then -(n : Int) else (n : Int)
      if -(2 ^ 31) ≤ v ∧ v ≤ 2 ^ 31 - 1 then some v else none
    else none

/-- Key membership in a games map (`HashMap::contains_key`). -/
def gamesContains (gs : List (String × Int)) (g : String) : Bool :=
  gs.any (fun p => p.1 = g)

/-- Lookup in a games map (`HashMap::get`). -/
def gamesGet (gs : List (String × Int)) (g : String) : Option Int :=
  (gs.find? (fun p => p.1 = g)).map (fun p => p.2)

/-- Overwrite the value stored at a key (`*map.get_mut(k) = v`). -/
def gamesSet (gs : List (String × Int)) (g : String) (v : Int) : List (String × Int) :=
  gs.map (fun p => if p.1 = g then (p.1, v) else p)

/-- Remove a key (`HashMap::remove`). -/
def gamesRemove (gs : List (String × Int)) (g : String) : List (String × Int) :=
  gs.filter (fun p => ¬(p.1 = g))

/-- Insert a key (`HashMap::insert`): replaces the value if the key is
present, otherwise adds a new entry. -/
def gamesInsert (gs : List (String × Int)) (g : String) (v : Int) : List (String × Int) :=
  if gamesContains gs g then gamesSet gs g v else gs ++ [(g, v)]

/-- Apply a function to the games map of the first user with the given name,
leaving everything else unchanged.  This is what mutating through
`users.iter_mut().find(|u| u.user == username)` does to the vector. -/
def updateFirstUserGames : List User → String → (List (String × Int) → List (String × Int)) → List User
  | [], _, _ => []
  | u :: rest, username, f =>
    if u.user = username then { u with games := f u.games } :: rest
    else u :: updateFirstUserGames rest username f

/-- Embedding of `load_user_file` (user.rs lines 17-28).  `readResult` is the
outcome of `std::fs::read_to_string("../users.json")` (`none` = any read
error, `some c` = contents `c`); `parseJson` is the outcome of
`serde_json::from_str` on given contents (an external library function,
passed in as a parameter).  A read error yields the empty collection, empty
contents yield the empty collection, and a parse failure is swallowed by
`unwrap_or_else(|_| Vec::new())`. -/
def load_user_file (readResult : Option String)
    (parseJson : String → Option (List User)) : List User :=
  match readResult with
  | none => []
  | some contents =>
    if contents = "" then []
    else
      match parseJson contents with
      | some users => users
      | none => []

/-- Embedding of `add_user` (user.rs lines 70-102): parse the total first,
then fail if the name is already taken, otherwise push a new user holding
exactly one game entry and save. -/
def add_user (users : List User) (username game starting_total : String) :
    StoreResult Unit :=
  match parseI32 starting_total with
  | none => .err .invalidNumber
  | some total =>
    if users.any (fun u => u.user = username) then .err (.alreadyExists username)
    else .ok (users ++ [{ user := username, games := [(game, total)] }]) ()

/-- Embedding of `add_game` (user.rs lines 37-67): parse the total first,
then find the user (error if absent), fail if the user already has the game,
otherwise insert it and save. -/
def add_game (users : List User) (username game starting_total : String) :
    StoreResult Unit :=
  match parseI32 starting_total with
  | none => .err .invalidNumber
  | some total =>
    match users.find? (fun u => u.user = username) with
    | some usr =>
      if gamesContains usr.games game then .err (.gameAlreadyExists username game)
      else .ok (updateFirstUserGames users username (fun gs => gamesInsert gs game total)) ()
    | none => .err (.userNotFound username)

/-- Embedding of `update_total` (user.rs lines 105-137): parse the delta,
find the user, find the game, add the delta to the stored total with `i32`
wrap-around, report whether the total crossed 300 from strictly below, and
save. -/
def update_total (users : List User) (username game additional_total : String) :
    StoreResult (Int × Bool) :=
  match parseI32 additional_total with
  | none => .err .invalidNumber
  | some additional =>
    match users.find? (fun u => u.user = username) with
    | some usr =>
      match gamesGet usr.games game with
      | some old_total =>
        let new_total := wrap32 (old_total + additional)
        let crossed_threshold := decide (old_total < 300) && decide (300 ≤ new_total)
        .ok (updateFirstUserGames users username (fun gs => gamesSet gs game new_total))
          (new_total, crossed_threshold)
      | none => .err (.gameNotFound username game)
    | none => .err (.userNotFound username)

/-- Embedding of `get_users` (user.rs lines 140-142): always succeeds with
the loaded collection. -/
def get_users (users : List User) : Except StoreError (List User) :=
  .ok users

/-- Embedding of `get_game_total` (user.rs lines 145-155). -/
def get_game_total (users : List User) (username game : String) :
    Except StoreError Int :=
  match users.find? (fun u => u.user = username) with
  | some usr =>
    match gamesGet usr.games game with
    | some total => .ok total
    | none => .error (.gameNotFound username game)
  | none => .error (.userNotFound username)

/-- Embedding of `get_user_total_all_games` (user.rs lines 158-168):
`i32` sum of all the user's game totals. -/
def get_user_total_all_games (users : List User) (username : String) :
    Except StoreError Int :=
  match users.find? (fun u => u.user = username) with
  | some usr => .ok (usr.games.foldl (fun acc p => wrap32 (acc + p.2)) 0)
  | none => .error (.userNotFound username)

/-- Embedding of `get_user_games` (user.rs lines 171-178). -/
def get_user_games (users : List User) (username : String) :
    Except StoreError (List (String × Int)) :=
  match users.find? (fun u => u.user = username) with
  | some usr => .ok usr.games
  | none => .error (.userNotFound username)

/-- Embedding of `remove_game` (user.rs lines 181-207): find the user, remove
the game (error if absent); if the user is left with no games, also drop the
user from the collection; save. -/
def remove_game (users : List User) (username game : String) : StoreResult Unit :=
  match users.find? (fun u => u.user = username) with
  | some usr =>
    if gamesContains usr.games game then
      let users1 := updateFirstUserGames users username (fun gs => gamesRemove gs game)
      if (gamesRemove usr.games game).isEmpty then
        .ok (users1.filter (fun u => ¬(u.user = username))) ()
      else .ok users1 ()
    else .err (.gameNotFound username game)
  | none => .err (.userNotFound username)

/-- Embedding of `delete_user` (user.rs lines 210-224): retain the other
users; save only if the length shrank, otherwise report the user missing. -/
def delete_user (users : List User) (username : String) : StoreResult Unit :=
  let retained := users.filter (fun u => ¬(u.user = username))
  if retained.length < users.length then .ok retained ()
  else .err (.userNotFound username)

/-- Worker of the tokenizer (main.rs lines 15-45): scan the characters with
an in-quotes flag and an accumulator; a double quote toggles the flag and is
dropped; a space outside quotes closes the current token (pushed only when
non-empty); every other character, and a space inside quotes, is appended to
the accumulator; a non-empty accumulator is pushed at end of input. -/
def tokenizeAux : List Char → Bool → List Char → List (List Char)
  | [], _, cur => if cur.isEmpty then [] else [cur]
  | c :: rest, in_quotes, cur =>
    if c = '"' then tokenizeAux rest (!in_quotes) cur
    else if c = ' ' ∧ in_quotes = false then
      if cur.isEmpty then tokenizeAux rest in_quotes cur
      else cur :: tokenizeAux rest in_quotes []
    else tokenizeAux rest in_quotes (cur ++ [c])

/-- Embedding of `parse_command_with_quotes` (main.rs lines 15-45). -/
def parse_command_with_quotes (input : String) : List String :=
  (tokenizeAux input.data false []).map (fun cs => String.mk cs)

/-- Boolean test that the first list is a prefix of the second. -/
def leadsAux : List Char → List Char → Bool
  | [], _ => true
  | _ :: _, [] => false
  | p :: ps, c :: cs => p = c && leadsAux ps cs

/-- Embedding of Rust `str::starts_with` as used by the dispatcher. -/
def hasLead (content keyword : String) : Bool :=
  leadsAux keyword.data content.data

/-- The command keywords listed by the specification (section 6). -/
def commandKeywords : List String :=
  ["!help", "!commands", "!quickhelp", "!adduser", "!addgame", "!updatetotal",
   "!removegame", "!deleteuser", "!usergames", "!getusers", "!gametotal",
   "!usertotal"]

/-- One message the dispatcher sends back: the help embed, a plain text
reply, or an error reply echoing a store failure (`format!("Error: {}", e)`
in main.rs). -/
inductive Reply where
  | embed
  | say (s : String)
  | error (e : StoreError)
deriving DecidableEq, Repr

/-- A record of one store-function invocation made by the dispatcher. -/
inductive StoreCall where
  | addUserC (username game total : String)
  | addGameC (username game total : String)
  | updateTotalC (username game delta : String)
  | removeGameC (username game : String)
  | deleteUserC (username : String)
  | getUserGamesC (username : String)
  | getUsersC
  | getGameTotalC (username game : String)
  | getUserTotalC (username : String)
deriving DecidableEq, Repr

/-- Observable outcome of dispatching one message: the replies sent, the
store functions invoked, and the collection left on disk. -/
structure DispatchResult where
  replies : List Reply
  calls : List StoreCall
  finalUsers : List User
deriving DecidableEq, Repr

/-- Render an integer the way `format!` does. -/
def intStr (n : Int) : String := toString n

/-- The quick help text sent for `!quickhelp` (main.rs line 115). -/
def quickHelpText : String :=
  "**Quick Commands:** `!adduser`, `!addgame`, `!updatetotal`, `!getusers`, `!usergames`, `!deleteuser`, `!removegame` | Use `!help` for details"

/-- Listing line for one game (main.rs line 314). -/
def gameLine (game : String) (total : Int) : String :=
  "• " ++ game ++ ": $" ++ intStr total

/-- Listing for one user in the `!getusers` output (main.rs lines 342-348). -/
def userBlockStr (u : User) : String :=
  "**" ++ u.user ++ "**\n" ++
    String.intercalate "\n" (u.games.map (fun p => "  " ++ gameLine p.1 p.2))

/-- The `!help`/`!commands` block (main.rs lines 51-112): sends the help
embed.  The plain-text fallback is only reached when the transport fails to
send the embed, which is outside the model. -/
def blockHelp (content : String) (s : DispatchResult) :
    Except DispatchResult DispatchResult :=
  if content = "!help" ∨ content = "!commands" then
    .ok { s with replies := s.replies ++ [Reply.embed] }
  else .ok s

/-- The `!quickhelp` block (main.rs lines 114-117). -/
def blockQuickhelp (content : String) (s : DispatchResult) :
    Except DispatchResult DispatchResult :=
  if content = "!quickhelp" then
    .ok { s with replies := s.replies ++ [Reply.say quickHelpText] }
  else .ok s

/-- The `!adduser` block (main.rs lines 120-153): prefix match, arity check
with early return, then `user::add_user`. -/
def blockAdduser (content : String) (s : DispatchResult) :
    Except DispatchResult DispatchResult :=
  if hasLead content "!adduser" then
    let parts := parse_command_with_quotes content
    if parts.length ≠ 4 then
      .error { s with replies :=
        s.replies ++ [Reply.say "Usage: !adduser <username> \"<game name>\" <total>"] }
    else
      let username := parts.getD 1 ""
      let game := parts.getD 2 ""
      let total := parts.getD 3 ""
      let calls := s.calls ++ [StoreCall.addUserC username game total]
      match add_user s.finalUsers username game total with
      | .ok saved _ =>
        .ok ⟨s.replies ++ [Reply.say ("Added user " ++ username ++ " with game '" ++
              game ++ "' and total $" ++ total)], calls, saved⟩
      | .err e => .ok ⟨s.replies ++ [Reply.error e], calls, s.finalUsers⟩
  else .ok s

/-- The `!addgame` block (main.rs lines 156-189). -/
def blockAddgame (content : String) (s : DispatchResult) :
    Except DispatchResult DispatchResult :=
  if hasLead content "!addgame" then
    let parts := parse_command_with_quotes content
    if parts.length ≠ 4 then
      .error { s with replies :=
        s.replies ++ [Reply.say "Usage: !addgame <username> \"<game name>\" <starting_total>"] }
    else
      let username := parts.getD 1 ""
      let game := parts.getD 2 ""
      let total := parts.getD 3 ""
      let calls := s.calls ++ [StoreCall.addGameC username game total]
      match add_game s.finalUsers username game total with
      | .ok saved _ =>
        .ok ⟨s.replies ++ [Reply.say ("Added game '" ++ game ++ "' with total $" ++
              total ++ " to user " ++ username)], calls, saved⟩
      | .err e => .ok ⟨s.replies ++ [Reply.error e], calls, s.finalUsers⟩
  else .ok s

/-- The `!updatetotal` block (main.rs lines 192-231): on success one
confirmation reply, plus the paging alert when the threshold was crossed. -/
def blockUpdatetotal (content : String) (s : DispatchResult) :
    Except DispatchResult DispatchResult :=
  if hasLead content "!updatetotal" then
    let parts := parse_command_with_quotes content
    if parts.length ≠ 4 then
      .error { s with replies :=
        s.replies ++ [Reply.say "Usage: !updatetotal <username> \"<game name>\" <additional_amount>"] }
    else
      let username := parts.getD 1 ""
      let game := parts.getD 2 ""
      let total := parts.getD 3 ""
      let calls := s.calls ++ [StoreCall.updateTotalC username game total]
      match update_total s.finalUsers username game total with
      | .ok saved (new_total, crossed_threshold) =>
        let confirm := Reply.say (username ++ "'s total for '" ++ game ++
          "' was updated by $" ++ intStr new_total)
        let alert := if crossed_threshold then
            [Reply.say ("@here 🚨 " ++ username ++ " just crossed $300 in " ++ game ++ "! 💸")]
          else []
        .ok ⟨s.replies ++ [confirm] ++ alert, calls, saved⟩
      | .err e => .ok ⟨s.replies ++ [Reply.error e], calls, s.finalUsers⟩
  else .ok s

/-- The `!removegame` block (main.rs lines 234-260). -/
def blockRemovegame (content : String) (s : DispatchResult) :
    Except DispatchResult DispatchResult :=
  if hasLead content "!removegame" then
    let parts := parse_command_with_quotes content
    if parts.length ≠ 3 then
      .error { s with replies :=
        s.replies ++ [Reply.say "Usage: !removegame <username> \"<game name>\""] }
    else
      let username := parts.getD 1 ""
      let game := parts.getD 2 ""
      let calls := s.calls ++ [StoreCall.removeGameC username game]
      match remove_game s.finalUsers username game with
      | .ok saved _ =>
        .ok ⟨s.replies ++ [Reply.say ("Removed game '" ++ game ++ "' from user " ++ username)],
          calls, saved⟩
      | .err e => .ok ⟨s.replies ++ [Reply.error e], calls, s.finalUsers⟩
  else .ok s

/-- The `!deleteuser` block (main.rs lines 263-288). -/
def blockDeleteuser (content : String) (s : DispatchResult) :
    Except DispatchResult DispatchResult :=
  if hasLead content "!deleteuser" then
    let parts := parse_command_with_quotes content
    if parts.length ≠ 2 then
      .error { s with replies := s.replies ++ [Reply.say "Usage: !deleteuser <username>"] }
    else
      let username := parts.getD 1 ""
      let calls := s.calls ++ [StoreCall.deleteUserC username]
      match delete_user s.finalUsers username with
      | .ok saved _ =>
        .ok ⟨s.replies ++ [Reply.say ("Deleted user " ++ username ++ " and all their games")],
          calls, saved⟩
      | .err e => .ok ⟨s.replies ++ [Reply.error e], calls, s.finalUsers⟩
  else .ok s

/-- The `!usergames` block (main.rs lines 291-328). -/
def blockUsergames (content : String) (s : DispatchResult) :
    Except DispatchResult DispatchResult :=
  if hasLead content "!usergames" then
    let parts := parse_command_with_quotes content
    if parts.length ≠ 2 then
      .error { s with replies := s.replies ++ [Reply.say "Usage: !usergames <username>"] }
    else
      let username := parts.getD 1 ""
      let calls := s.calls ++ [StoreCall.getUserGamesC username]
      match get_user_games s.finalUsers username with
      | .ok games =>
        if games.isEmpty then
          .ok ⟨s.replies ++ [Reply.say ("User " ++ username ++ " has no games")], calls,
            s.finalUsers⟩
        else
          .ok ⟨s.replies ++ [Reply.say ("**" ++ username ++ "'s Games:**\n" ++
                String.intercalate "\n" (games.map (fun p => gameLine p.1 p.2)))],
            calls, s.finalUsers⟩
      | .error e => .ok ⟨s.replies ++ [Reply.error e], calls, s.finalUsers⟩
  else .ok s

/-- The `!getusers` block (main.rs lines 331-362): exact-match keyword; the
empty-collection reply returns early. -/
def blockGetusers (content : String) (s : DispatchResult) :
    Except DispatchResult DispatchResult :=
  if content = "!getusers" then
    let calls := s.calls ++ [StoreCall.getUsersC]
    match get_users s.finalUsers with
    | .ok user_list =>
      if user_list.isEmpty then
        .error ⟨s.replies ++ [Reply.say
          "No users are currently added to the bot! Try the !adduser command."], calls,
          s.finalUsers⟩
      else
        .ok ⟨s.replies ++ [Reply.say ("**All Users:**\n" ++
              String.intercalate "\n\n" (user_list.map userBlockStr))], calls, s.finalUsers⟩
    | .error e => .ok ⟨s.replies ++ [Reply.error e], calls, s.finalUsers⟩
  else .ok s

/-- The `!gametotal` block (main.rs lines 364-390). -/
def blockGametotal (content : String) (s : DispatchResult) :
    Except DispatchResult DispatchResult :=
  if hasLead content "!gametotal" then
    let parts := parse_command_with_quotes content
    if parts.length ≠ 3 then
      .error { s with replies := s.replies ++ [Reply.say "Usage: !gametotal <username> \"<game>\""] }
    else
      let username := parts.getD 1 ""
      let game := parts.getD 2 ""
      let calls := s.calls ++ [StoreCall.getGameTotalC username game]
      match get_game_total s.finalUsers username game with
      | .ok total =>
        .ok ⟨s.replies ++ [Reply.say (username ++ "'s total for '" ++ game ++ "': $" ++
              intStr total)], calls, s.finalUsers⟩
      | .error e => .ok ⟨s.replies ++ [Reply.error e], calls, s.finalUsers⟩
  else .ok s

/-- The `!usertotal` block (main.rs lines 392-420). -/
def blockUsertotal (content : String) (s : DispatchResult) :
    Except DispatchResult DispatchResult :=
  if hasLead content "!usertotal" then
    let parts := parse_command_with_quotes content
    if parts.length ≠ 2 then
      .error { s with replies := s.replies ++ [Reply.say "Usage: !usertotal <username>"] }
    else
      let username := parts.getD 1 ""
      let calls := s.calls ++ [StoreCall.getUserTotalC username]
      match get_user_total_all_games s.finalUsers username with
      | .ok total =>
        .ok ⟨s.replies ++ [Reply.say (username ++ "'s total across all available games: $" ++
              intStr total)], calls, s.finalUsers⟩
      | .error e => .ok ⟨s.replies ++ [Reply.error e], calls, s.finalUsers⟩
  else .ok s

/-- The body of `EventHandler::message` (main.rs lines 49-421) as the
sequential composition of its command blocks; `Except.error` carries the
result of an early `return`. -/
def dispatchChain (content : String) (s0 : DispatchResult) :
    Except DispatchResult DispatchResult :=
  blockHelp content s0 >>= blockQuickhelp content >>= blockAdduser content >>=
    blockAddgame content >>= blockUpdatetotal content >>= blockRemovegame content >>=
    blockDeleteuser content >>= blockUsergames content >>= blockGetusers content >>=
    blockGametotal content >>= blockUsertotal content

/-- Dispatch one incoming message against the given persisted collection:
the replies sent, the store calls made, and the resulting collection. -/
def message (users : List User) (content : String) : DispatchResult :=
  match dispatchChain content ⟨[], [], users⟩ with
  | .ok r => r
  | .error r => r

/-- One mutating store operation together with its string arguments, as
issued through the public store API. -/
inductive Op where
  | opAddUser (username game total : String)
  | opAddGame (username game total : String)
  | opUpdateTotal (username game delta : String)
  | opRemoveGame (username game : String)
  | opDeleteUser (username : String)
deriving DecidableEq, Repr

/-- The collection on disk after running one store operation against the
collection currently on disk. -/
def applyOp (users : List User) : Op → List User
  | .opAddUser n g t => savedOf users (add_user users n g t)
  | .opAddGame n g t => savedOf users (add_game users n g t)
  | .opUpdateTotal n g t => savedOf users (update_total users n g t)
  | .opRemoveGame n g => savedOf users (remove_game users n g)
  | .opDeleteUser n => savedOf users (delete_user users n)

/-- Run a sequence of store operations, starting from the given collection. -/
def runOps (users : List User) : List Op → List User
  | [] => users
  | op :: rest => runOps (applyOp users op) rest

/-- The names of the users of a collection, in order. -/
def userNames (users : List User) : List String :=
  users.map (fun u => u.user)

/-- Well-formedness of a persisted collection: user names are unique, each
user's game names are unique, and every user owns at least one game. -/
def Wf (users : List User) : Prop :=
  (userNames users).Nodup ∧
    ∀ u ∈ users, (u.games.map Prod.fst).Nodup ∧ u.games ≠ []

lemma savedOf_err {α : Type} (users : List User) (e : StoreError) :
    savedOf users (StoreResult.err e : StoreResult α) = users := rfl

lemma userNames_updateFirstUserGames (users : List User) (n : String)
    (f : List (String × Int) → List (String × Int)) :
    userNames (updateFirstUserGames users n f) = userNames users := by
  induction users with
  | nil => rfl
  | cons u rest ih =>
    by_cases h : u.user = n
    · simp [updateFirstUserGames, userNames, h]
    · simp only [updateFirstUserGames, userNames, h, if_false, List.map_cons]
      simpa [userNames] using ih

lemma mem_updateFirstUserGames {users : List User} {n : String}
    {f : List (String × Int) → List (String × Int)} {u' : User}
    (h : u' ∈ updateFirstUserGames users n f) :
    u' ∈ users ∨ ∃ u ∈ users, u.user = n ∧ u' = { u with games := f u.games } := by
  induction users with
  | nil => simp [updateFirstUserGames] at h
  | cons u rest ih =>
    by_cases hu : u.user = n
    · simp only [updateFirstUserGames, if_pos hu, List.mem_cons] at h
      rcases h with h | h
      · exact Or.inr ⟨u, List.mem_cons_self u rest, hu, h⟩
      · exact Or.inl (List.mem_cons_of_mem u h)
    · simp only [updateFirstUserGames, if_neg hu, List.mem_cons] at h
      rcases h with h | h
      · exact Or.inl (h ▸ List.mem_cons_self u rest)
      · rcases ih h with h' | ⟨v, hv, hvn, hv'⟩
        · exact Or.inl (List.mem_cons_of_mem u h')
        · exact Or.inr ⟨v, List.mem_cons_of_mem u hv, hvn, hv'⟩

lemma wf_updateFirstUserGames {users : List User} {n : String}
    {f : List (String × Int) → List (String × Int)} (hwf : Wf users)
    (hf : ∀ u ∈ users, u.user = n →
      ((f u.games).map Prod.fst).Nodup ∧ f u.games ≠ []) :
    Wf (updateFirstUserGames users n f) := by
  constructor
  · rw [userNames_updateFirstUserGames]
    exact hwf.1
  · intro u' hu'
    rcases mem_updateFirstUserGames hu' with h | ⟨u, hu, hun, h⟩
    · exact hwf.2 u' h
    · subst h
      exact hf u hu hun

lemma gamesSet_keys (gs : List (String × Int)) (g : String) (v : Int) :
    (gamesSet gs g v).map Prod.fst = gs.map Prod.fst := by
  induction gs with
  | nil => rfl
  | cons p rest ih =>
    by_cases h : p.1 = g <;> simp [gamesSet, h] <;> simpa [gamesSet] using ih

lemma gamesSet_ne_nil {gs : List (String × Int)} (g : String) (v : Int)
    (h : gs ≠ []) : gamesSet gs g v ≠ [] := by
  cases gs with
  | nil => exact absurd rfl h
  | cons p rest => simp [gamesSet]

lemma gamesRemove_keys_nodup {gs : List (String × Int)} (g : String)
    (h : (gs.map Prod.fst).Nodup) : ((gamesRemove gs g).map Prod.fst).Nodup :=
  ((List.filter_sublist gs).map Prod.fst).nodup h

lemma find?_user_unique {users : List User} {n : String} {usr u : User}
    (hnd : (userNames users).Nodup)
    (hfind : users.find? (fun u => u.user = n) = some usr)
    (hu : u ∈ users) (hun : u.user = n) : u = usr := by
  have husr : usr ∈ users := List.mem_of_find?_eq_some hfind
  have husrn : usr.user = n := by
    have := List.find?_some hfind
    simpa using this
  exact List.inj_on_of_nodup_map hnd hu husr (by rw [hun, husrn])

lemma wf_filter {users : List User} (hwf : Wf users) (p : User → Bool) :
    Wf (users.filter p) := by
  constructor
  · show ((users.filter p).map (fun u => u.user)).Nodup
    have h1 : (users.map (fun u => u.user)).Nodup := hwf.1
    exact ((List.filter_sublist users).map (fun u => u.user)).nodup h1
  · intro u hu
    exact hwf.2 u (List.mem_filter.mp hu).1

lemma contains_of_mem_keys {gs : List (String × Int)} {g : String}
    (h : ∃ p ∈ gs, p.1 = g) : gamesContains gs g = true := by
  rcases h with ⟨p, hp, hpg⟩
  exact List.any_eq_true.mpr ⟨p, hp, by simp [hpg]⟩

lemma wf_applyOp {users : List User} (hwf : Wf users) (op : Op) :
    Wf (applyOp users op) := by
  cases op with
  | opAddUser n g t =>
    cases hp : parseI32 t with
    | none => simp only [applyOp, add_user, hp, savedOf]; exact hwf
    | some v =>
      by_cases hex : users.any (fun u => u.user = n) = true
      · simp only [applyOp, add_user, hp, hex, if_true, savedOf]
        exact hwf
      · simp only [applyOp, add_user, hp, hex, if_false, Bool.false_eq_true, savedOf]
        constructor
        · simp only [userNames, List.map_append, List.nodup_append]
          refine ⟨hwf.1, by simp, ?_⟩
          intro a ha hb
          simp only [List.map_cons, List.map_nil, List.mem_singleton] at hb
          subst hb
          rcases List.mem_map.mp ha with ⟨u, hu, hun⟩
          exact hex (List.any_eq_true.mpr ⟨u, hu, by simp [hun]⟩)
        · intro u hu
          rcases List.mem_append.mp hu with h | h
          · exact hwf.2 u h
          · simp only [List.mem_singleton] at h
            subst h
            exact ⟨by simp, by simp⟩
  | opAddGame n g t =>
    cases hp : parseI32 t with
    | none => simp only [applyOp, add_game, hp, savedOf]; exact hwf
    | some v =>
      cases hfind : users.find? (fun u => u.user = n) with
      | none => simp only [applyOp, add_game, hp, hfind, savedOf]; exact hwf
      | some usr =>
        by_cases hc : gamesContains usr.games g = true
        · simp only [applyOp, add_game, hp, hfind, hc, if_true, savedOf]
          exact hwf
        · simp only [applyOp, add_game, hp, hfind, hc, if_false, Bool.false_eq_true,
            savedOf]
          apply wf_updateFirstUserGames hwf
          intro u hu hun
          have hequ : u = usr := find?_user_unique hwf.1 hfind hu hun
          subst hequ
          have hc' : gamesContains u.games g = false := Bool.eq_false_iff.mpr hc
          rw [gamesInsert, hc']
          simp only [Bool.false_eq_true, if_false]
          constructor
          · rw [List.map_append, List.nodup_append]
            refine ⟨(hwf.2 u hu).1, by simp, ?_⟩
            intro a ha hb
            simp only [List.map_cons, List.map_nil, List.mem_singleton] at hb
            subst hb
            rcases List.mem_map.mp ha with ⟨p, hp', hpg⟩
            rw [contains_of_mem_keys ⟨p, hp', hpg⟩] at hc'
            cases hc'
          · simp
  | opUpdateTotal n g t =>
    cases hp : parseI32 t with
    | none => simp only [applyOp, update_total, hp, savedOf]; exact hwf
    | some d =>
      cases hfind : users.find? (fun u => u.user = n) with
      | none => simp only [applyOp, update_total, hp, hfind, savedOf]; exact hwf
      | some usr =>
        cases hg : gamesGet usr.games g with
        | none => simp only [applyOp, update_total, hp, hfind, hg, savedOf]; exact hwf
        | some old =>
          simp only [applyOp, update_total, hp, hfind, hg, savedOf]
          apply wf_updateFirstUserGames hwf
          intro u hu _
          refine ⟨?_, gamesSet_ne_nil _ _ (hwf.2 u hu).2⟩
          rw [gamesSet_keys]
          exact (hwf.2 u hu).1
  | opRemoveGame n g =>
    cases hfind : users.find? (fun u => u.user = n) with
    | none => simp only [applyOp, remove_game, hfind, savedOf]; exact hwf
    | some usr =>
      by_cases hc : gamesContains usr.games g = true
      · by_cases he : (gamesRemove usr.games g).isEmpty = true
        · simp only [applyOp, remove_game, hfind, hc, if_true, he, savedOf]
          constructor
          · show (((updateFirstUserGames users n (fun gs => gamesRemove gs g)).filter
                (fun u => ¬(u.user = n))).map (fun u => u.user)).Nodup
            have h2 : ((updateFirstUserGames users n (fun gs => gamesRemove gs g)).map
                (fun u => u.user)).Nodup := by
              have h3 := userNames_updateFirstUserGames users n
                (fun gs => gamesRemove gs g)
              simp only [userNames] at h3
              rw [h3]
              exact hwf.1
            exact ((List.filter_sublist (updateFirstUserGames users n
              (fun gs => gamesRemove gs g))).map (fun u => u.user)).nodup h2
          · intro u' hu'
            rw [List.mem_filter] at hu'
            obtain ⟨hmem, hpred⟩ := hu'
            rcases mem_updateFirstUserGames hmem with h | ⟨u, hu, hun, h⟩
            · exact hwf.2 u' h
            · exfalso
              subst h
              simp only [decide_eq_true_eq] at hpred
              exact hpred hun
        · simp only [applyOp, remove_game, hfind, hc, if_true, he, if_false,
            Bool.false_eq_true, savedOf]
          apply wf_updateFirstUserGames hwf
          intro u hu hun
          have hequ : u = usr := find?_user_unique hwf.1 hfind hu hun
          subst hequ
          refine ⟨gamesRemove_keys_nodup g (hwf.2 u hu).1, ?_⟩
          intro hnil
          exact he (by rw [hnil]; rfl)
      · simp only [applyOp, remove_game, hfind, hc, if_false, Bool.false_eq_true,
          savedOf]
        exact hwf
  | opDeleteUser n =>
    by_cases hlen :
        (users.filter (fun u => ¬(u.user = n))).length < users.length
    · simp only [applyOp, delete_user, hlen, if_true, savedOf]
      exact wf_filter hwf _
    · simp only [applyOp, delete_user, hlen, if_false, savedOf]
      exact hwf

lemma wf_runOps {users : List User} (hwf : Wf users) (ops : List Op) :
    Wf (runOps users ops) := by
  induction ops generalizing users with
  | nil => exact hwf
  | cons op rest ih => exact ih (wf_applyOp hwf op)

lemma wf_nil : Wf [] := ⟨List.nodup_nil, by intro u hu; cases hu⟩

lemma tokenizeAux_ne_nil :
    ∀ (l : List Char) (inq : Bool) (cur : List Char),
      ∀ t ∈ tokenizeAux l inq cur, t ≠ [] := by
  intro l
  induction l with
  | nil =>
    intro inq cur t ht
    by_cases hc : cur.isEmpty = true
    · simp [tokenizeAux, hc] at ht
    · simp only [tokenizeAux, hc, if_false, Bool.false_eq_true,
        List.mem_singleton] at ht
      subst ht
      simpa [List.isEmpty_iff] using hc
  | cons c rest ih =>
    intro inq cur t ht
    by_cases hq : c = '"'
    · rw [tokenizeAux, if_pos hq] at ht
      exact ih _ _ t ht
    · by_cases hs : c = ' ' ∧ inq = false
      · rw [tokenizeAux, if_neg hq, if_pos hs] at ht
        by_cases hc : cur.isEmpty = true
        · rw [if_pos hc] at ht
          exact ih _ _ t ht
        · rw [if_neg hc] at ht
          rcases List.mem_cons.mp ht with h | h
          · subst h
            simpa [List.isEmpty_iff] using hc
          · exact ih _ _ t h
      · rw [tokenizeAux, if_neg hq, if_neg hs] at ht
        exact ih _ _ t ht

lemma tokenizeAux_all_spaces :
    ∀ (l : List Char), (∀ c ∈ l, c = ' ') → tokenizeAux l false [] = [] := by
  intro l
  induction l with
  | nil => intro _; rfl
  | cons c rest ih =>
    intro h
    have hc : c = ' ' := h c (List.mem_cons_self c rest)
    subst hc
    rw [tokenizeAux, if_neg (by decide), if_pos ⟨rfl, rfl⟩, if_pos (by rfl)]
    exact ih (fun c hc => h c (List.mem_cons_of_mem _ hc))

/-- C2: the tokenizer `parse_command_with_quotes` never emits an empty
token, maps an empty or all-space line to the empty token sequence, and
splits the specification's example line (with a quoted two-word game name)
into its four argument tokens. -/
theorem parse_command_with_quotes_spec :
    (∀ input : String, "" ∉ parse_command_with_quotes input)
    ∧ (∀ input : String, (∀ c ∈ input.data, c = ' ') →
        parse_command_with_quotes input = [])
    ∧ parse_command_with_quotes "!adduser Q \"Tekken 8\" 200"
        = ["!adduser", "Q", "Tekken 8", "200"]
    ∧ parse_command_with_quotes "" = []
    ∧ parse_command_with_quotes "a  b" = ["a", "b"] := by
  refine ⟨?_, ?_, by decide, by decide, by decide⟩
  · intro input hmem
    rcases List.mem_map.mp hmem with ⟨cs, hcs, hmk⟩
    have : cs = [] := congrArg String.data hmk
    exact tokenizeAux_ne_nil input.data false [] cs hcs this
  · intro input h
    unfold parse_command_with_quotes
    rw [tokenizeAux_all_spaces input.data h]
    rfl

/-- C2 witness: the universally quantified parts of the tokenizer theorem
evaluated at concrete inputs. -/
theorem parse_command_with_quotes_spec_witness :
    parse_command_with_quotes "   " = [] :=
  parse_command_with_quotes_spec.2.1 "   " (by decide)

/-- C5: loading the persisted document never fails: a read error yields the
empty collection, and contents that fail to parse as the expected structure
also yield the empty collection instead of an error. -/
theorem load_user_file_never_fails :
    ∀ parseJson : String → Option (List User),
      load_user_file none parseJson = []
      ∧ (∀ contents, parseJson contents = none →
          load_user_file (some contents) parseJson = []) := by
  intro parseJson
  refine ⟨rfl, ?_⟩
  intro contents h
  by_cases hc : contents = ""
  · simp [load_user_file, hc]
  · simp [load_user_file, hc, h]

/-- C5 witness: unparsable contents load as the empty collection. -/
theorem load_user_file_never_fails_witness :
    load_user_file (some "corrupt") (fun _ => none) = [] :=
  (load_user_file_never_fails (fun _ => none)).2 "corrupt" rfl

/-- C3: `add_user` fails with the invalid-number error exactly when the
total text does not parse (even when the name is also taken, since parsing
happens first), otherwise fails with the already-exists error exactly when
the name is present, and otherwise appends a user holding exactly the one
game entry and saves the collection. -/
theorem add_user_error_spec :
    ∀ (users : List User) (n g t : String),
      (parseI32 t = none →
        add_user users n g t = StoreResult.err StoreError.invalidNumber)
      ∧ (∀ v : Int, parseI32 t = some v →
          users.any (fun u => u.user = n) = true →
          add_user users n g t = StoreResult.err (StoreError.alreadyExists n))
      ∧ (∀ v : Int, parseI32 t = some v →
          users.any (fun u => u.user = n) = false →
          add_user users n g t
            = StoreResult.ok (users ++ [{ user := n, games := [(g, v)] }]) ()) := by
  intro users n g t
  refine ⟨?_, ?_, ?_⟩
  · intro h
    simp [add_user, h]
  · intro v h hex
    simp [add_user, h, hex]
  · intro v h hex
    simp [add_user, h, hex]

/-- C3 witness: the three branches of the `add_user` specification on
concrete inputs, including invalid-number taking precedence over
already-exists. -/
theorem add_user_error_spec_witness :
    add_user [⟨"Q", [("Tekken 8", 200)]⟩] "Q" "Tekken 8" "abc"
        = StoreResult.err StoreError.invalidNumber
    ∧ add_user [⟨"Q", [("Tekken 8", 200)]⟩] "Q" "G" "5"
        = StoreResult.err (StoreError.alreadyExists "Q")
    ∧ add_user [] "Q" "Tekken 8" "200"
        = StoreResult.ok [⟨"Q", [("Tekken 8", 200)]⟩] () :=
  ⟨(add_user_error_spec [⟨"Q", [("Tekken 8", 200)]⟩] "Q" "Tekken 8" "abc").1
      (by decide),
   (add_user_error_spec [⟨"Q", [("Tekken 8", 200)]⟩] "Q" "G" "5").2.1 5
      (by decide) (by decide),
   (add_user_error_spec [] "Q" "Tekken 8" "200").2.2 200 (by decide) (by decide)⟩

/-- C9: when the name is absent, a successful `add_user` followed by
`get_game_total` on the saved collection returns exactly the parsed total. -/
theorem add_user_get_game_total_roundtrip :
    ∀ (users : List User) (n g t : String) (v : Int),
      parseI32 t = some v →
      users.any (fun u => u.user = n) = false →
      add_user users n g t
          = StoreResult.ok (users ++ [{ user := n, games := [(g, v)] }]) ()
      ∧ get_game_total (users ++ [{ user := n, games := [(g, v)] }]) n g
          = Except.ok v := by
  intro users n g t v hp hex
  constructor
  · simp [add_user, hp, hex]
  · have h1 : users.find? (fun u => u.user = n) = none := by
      rw [List.find?_eq_none]
      intro x hx
      rw [List.any_eq_false] at hex
      exact hex x hx
    simp only [get_game_total, List.find?_append, h1, Option.none_or]
    simp [gamesGet, List.find?]

/-- C9 witness: the specification's round-trip example,
`addUser("Q","Tekken 8","200")` then `getGameTotal("Q","Tekken 8") = 200`. -/
theorem add_user_get_game_total_roundtrip_witness :
    add_user [] "Q" "Tekken 8" "200"
        = StoreResult.ok [⟨"Q", [("Tekken 8", 200)]⟩] ()
    ∧ get_game_total [⟨"Q", [("Tekken 8", 200)]⟩] "Q" "Tekken 8"
        = Except.ok 200 :=
  add_user_get_game_total_roundtrip [] "Q" "Tekken 8" "200" 200 (by decide)
    (by decide)

/-- C10: every mutating store operation that returns a validation error does
so by an early return placed before `save_users_to_file`, so the persisted
collection is exactly what it was before the call. -/
theorem store_error_leaves_collection_unchanged :
    ∀ users : List User,
      (∀ n g t e, add_user users n g t = StoreResult.err e →
        savedOf users (add_user users n g t) = users)
      ∧ (∀ n g t e, add_game users n g t = StoreResult.err e →
        savedOf users (add_game users n g t) = users)
      ∧ (∀ n g t e, update_total users n g t = StoreResult.err e →
        savedOf users (update_total users n g t) = users)
      ∧ (∀ n g e, remove_game users n g = StoreResult.err e →
        savedOf users (remove_game users n g) = users)
      ∧ (∀ n e, delete_user users n = StoreResult.err e →
        savedOf users (delete_user users n) = users) := by
  intro users
  refine ⟨?_, ?_, ?_, ?_, ?_⟩
  · intro n g t e h
    rw [h, savedOf_err]
  · intro n g t e h
    rw [h, savedOf_err]
  · intro n g t e h
    rw [h, savedOf_err]
  · intro n g e h
    rw [h, savedOf_err]
  · intro n e h
    rw [h, savedOf_err]

/-- C10 witness: a failing `delete_user` on the empty collection leaves the
empty collection on disk. -/
theorem store_error_leaves_collection_unchanged_witness :
    savedOf [] (delete_user [] "Q") = [] :=
  (store_error_leaves_collection_unchanged []).2.2.2.2 "Q"
    (StoreError.userNotFound "Q") (by decide)

lemma wrap32_eq_self {x : Int} (h1 : -(2 ^ 31) ≤ x) (h2 : x ≤ 2 ^ 31 - 1) :
    wrap32 x = x := by
  have hpow : (2 : Int) ^ 32 = 2 ^ 31 + 2 ^ 31 := by norm_num
  have h3 : (0 : Int) ≤ x + 2 ^ 31 := by linarith
  have h4 : x + 2 ^ 31 < 2 ^ 32 := by linarith
  rw [wrap32, Int.emod_eq_of_lt h3 h4]
  ring

/-- C1: whenever `update_total` succeeds, the returned crossed-threshold
flag is true exactly when the stored total before the update was strictly
below 300 and the stored total after the update is at least 300; the three
threshold-edge examples of the specification (250+40, 290+20, 310+10)
evaluate as claimed. -/
theorem update_total_crossed_threshold_spec :
    (∀ (users : List User) (n g t : String) (saved : List User) (nt : Int)
        (ct : Bool) (usr : User) (old : Int),
      update_total users n g t = StoreResult.ok saved (nt, ct) →
      users.find? (fun u => u.user = n) = some usr →
      gamesGet usr.games g = some old →
      (ct = true ↔ (old < 300 ∧ 300 ≤ nt)))
    ∧ update_total [⟨"Q", [("Tekken 8", 250)]⟩] "Q" "Tekken 8" "40"
        = StoreResult.ok [⟨"Q", [("Tekken 8", 290)]⟩] (290, false)
    ∧ update_total [⟨"Q", [("Tekken 8", 290)]⟩] "Q" "Tekken 8" "20"
        = StoreResult.ok [⟨"Q", [("Tekken 8", 310)]⟩] (310, true)
    ∧ update_total [⟨"Q", [("Tekken 8", 310)]⟩] "Q" "Tekken 8" "10"
        = StoreResult.ok [⟨"Q", [("Tekken 8", 320)]⟩] (320, false) := by
  refine ⟨?_, by decide, by decide, by decide⟩
  intro users n g t saved nt ct usr old heq hfind hget
  cases hp : parseI32 t with
  | none =>
    simp only [update_total, hp] at heq
    cases heq
  | some d =>
    simp only [update_total, hp, hfind, hget, StoreResult.ok.injEq,
      Prod.mk.injEq] at heq
    obtain ⟨-, h2, h3⟩ := heq
    subst h2
    subst h3
    simp [Bool.and_eq_true, decide_eq_true_eq]

/-- C1 witness: the iff instantiated at the crossing example (290 + 20). -/
theorem update_total_crossed_threshold_spec_witness :
    (true = true ↔ ((290 : Int) < 300 ∧ (300 : Int) ≤ 310)) :=
  update_total_crossed_threshold_spec.1 [⟨"Q", [("Tekken 8", 290)]⟩] "Q"
    "Tekken 8" "20" [⟨"Q", [("Tekken 8", 310)]⟩] 310 true
    ⟨"Q", [("Tekken 8", 290)]⟩ 290 (by decide) (by decide) (by decide)

/-- C6 counterexample: at total 2147483647 (the largest `i32`), a delta of 1
makes `update_total` return the wrapped total -2147483648, which is not the
exact mathematical sum 2147483647 + 1, so the claim as stated fails. -/
theorem update_total_overflow_counterexample :
    update_total [⟨"Q", [("G", 2147483647)]⟩] "Q" "G" "1"
      = StoreResult.ok [⟨"Q", [("G", -2147483648)]⟩] (-2147483648, false)
    ∧ (-2147483648 : Int) ≠ (2147483647 : Int) + 1 :=
  ⟨by decide, by decide⟩

/-- C6 (amended): whenever `update_total` succeeds, the returned new total
is the two's-complement-wrapped `i32` sum of the previous total and the
parsed delta, and it equals the exact mathematical sum whenever that sum
fits in the `i32` range; no other floor or ceiling is enforced. -/
theorem update_total_new_total_spec :
    ∀ (users : List User) (n g t : String) (saved : List User) (nt : Int)
      (ct : Bool) (usr : User) (old d : Int),
      update_total users n g t = StoreResult.ok saved (nt, ct) →
      users.find? (fun u => u.user = n) = some usr →
      gamesGet usr.games g = some old →
      parseI32 t = some d →
      nt = wrap32 (old + d)
      ∧ (-(2 ^ 31) ≤ old + d → old + d ≤ 2 ^ 31 - 1 → nt = old + d) := by
  intro users n g t saved nt ct usr old d heq hfind hget hp
  simp only [update_total, hp, hfind, hget, StoreResult.ok.injEq,
    Prod.mk.injEq] at heq
  obtain ⟨-, h2, -⟩ := heq
  subst h2
  exact ⟨rfl, fun hlo hhi => wrap32_eq_self hlo hhi⟩

/-- C6 witness: the amended statement at 250 + 40 = 290 (in range, exact). -/
theorem update_total_new_total_spec_witness :
    (290 : Int) = wrap32 (250 + 40)
    ∧ (-(2 ^ 31) ≤ (250 : Int) + 40 → (250 : Int) + 40 ≤ 2 ^ 31 - 1 →
        (290 : Int) = 250 + 40) :=
  update_total_new_total_spec [⟨"Q", [("Tekken 8", 250)]⟩] "Q" "Tekken 8"
    "40" [⟨"Q", [("Tekken 8", 290)]⟩] 290 false ⟨"Q", [("Tekken 8", 250)]⟩
    250 40 (by decide) (by decide) (by decide) (by decide)

/-- C4: every collection reachable from the empty collection by store
operations is well-formed (unique user names, per-user unique game names,
no user with zero games); and when `remove_game` removes the found user's
last game, no user with that name remains in the saved collection. -/
theorem reachable_collection_invariants :
    (∀ ops : List Op, Wf (runOps [] ops))
    ∧ (∀ (users : List User) (n g : String) (saved : List User),
        remove_game users n g = StoreResult.ok saved () →
        ∀ usr, users.find? (fun u => u.user = n) = some usr →
          gamesRemove usr.games g = [] →
          ∀ u ∈ saved, ¬(u.user = n)) := by
  constructor
  · intro ops
    exact wf_runOps wf_nil ops
  · intro users n g saved heq usr hfind hempty u hu
    by_cases hc : gamesContains usr.games g = true
    · simp only [remove_game, hfind, hc, if_true, hempty, List.isEmpty_nil,
        if_true, StoreResult.ok.injEq] at heq
      obtain ⟨h1, -⟩ := heq
      subst h1
      have := (List.mem_filter.mp hu).2
      simpa using this
    · simp only [remove_game, hfind, hc, if_false, Bool.false_eq_true] at heq
      cases heq

/-- C4 witness: a singleton reachable collection is well-formed, and
removing the last game of the only user removes the user. -/
theorem reachable_collection_invariants_witness :
    Wf (runOps [] [Op.opAddUser "Q" "G" "5"])
    ∧ ∀ u ∈ ([] : List User), ¬(u.user = "Q") :=
  ⟨reachable_collection_invariants.1 [Op.opAddUser "Q" "G" "5"],
   reachable_collection_invariants.2 [⟨"Q", [("G", 5)]⟩] "Q" "G" []
     (by decide) ⟨"Q", [("G", 5)]⟩ (by decide) (by decide)⟩

lemma except_ok_bind {ε α β : Type} (a : α) (f : α → Except ε β) :
    (Except.ok a >>= f) = f a := rfl

lemma except_error_bind {ε α β : Type} (e : ε) (f : α → Except ε β) :
    (Except.error e >>= f : Except ε β) = Except.error e := rfl

lemma leadsAux_comparable :
    ∀ (cs p q : List Char), leadsAux p cs = true → leadsAux q cs = true →
      leadsAux p q = true ∨ leadsAux q p = true := by
  intro cs
  induction cs with
  | nil =>
    intro p q hp hq
    cases p with
    | nil => exact Or.inl rfl
    | cons a ps => cases hp
  | cons c rest ih =>
    intro p q hp hq
    cases p with
    | nil => exact Or.inl rfl
    | cons a ps =>
      cases q with
      | nil => exact Or.inr rfl
      | cons b qs =>
        rw [leadsAux, Bool.and_eq_true] at hp hq
        obtain ⟨hac, hp'⟩ := hp
        obtain ⟨hbc, hq'⟩ := hq
        have hab : a = b := by
          have h1 : a = c := by simpa using hac
          have h2 : b = c := by simpa using hbc
          rw [h1, h2]
        rcases ih ps qs hp' hq' with h | h
        · exact Or.inl (by rw [leadsAux, Bool.and_eq_true]; exact ⟨by simp [hab], h⟩)
        · exact Or.inr (by rw [leadsAux, Bool.and_eq_true]; exact ⟨by simp [hab], h⟩)

lemma hasLead_excl {content p q : String} (h : hasLead content p = true)
    (h1 : leadsAux p.data q.data = false) (h2 : leadsAux q.data p.data = false) :
    hasLead content q = false := by
  cases hq : hasLead content q with
  | false => rfl
  | true =>
    rcases leadsAux_comparable content.data p.data q.data h hq with h' | h'
    · rw [h'] at h1
      cases h1
    · rw [h'] at h2
      cases h2

lemma blockHelp_skip {content : String} (s : DispatchResult)
    (h1 : content ≠ "!help") (h2 : content ≠ "!commands") :
    blockHelp content s = .ok s := by
  simp [blockHelp, h1, h2]

lemma blockQuickhelp_skip {content : String} (s : DispatchResult)
    (h : content ≠ "!quickhelp") : blockQuickhelp content s = .ok s := by
  simp [blockQuickhelp, h]

lemma blockAdduser_skip {content : String} (s : DispatchResult)
    (h : hasLead content "!adduser" = false) : blockAdduser content s = .ok s := by
  simp [blockAdduser, h]

lemma blockAddgame_skip {content : String} (s : DispatchResult)
    (h : hasLead content "!addgame" = false) : blockAddgame content s = .ok s := by
  simp [blockAddgame, h]

lemma blockUpdatetotal_skip {content : String} (s : DispatchResult)
    (h : hasLead content "!updatetotal" = false) :
    blockUpdatetotal content s = .ok s := by
  simp [blockUpdatetotal, h]

lemma blockRemovegame_skip {content : String} (s : DispatchResult)
    (h : hasLead content "!removegame" = false) :
    blockRemovegame content s = .ok s := by
  simp [blockRemovegame, h]

lemma blockDeleteuser_skip {content : String} (s : DispatchResult)
    (h : hasLead content "!deleteuser" = false) :
    blockDeleteuser content s = .ok s := by
  simp [blockDeleteuser, h]

lemma blockUsergames_skip {content : String} (s : DispatchResult)
    (h : hasLead content "!usergames" = false) :
    blockUsergames content s = .ok s := by
  simp [blockUsergames, h]

lemma blockGetusers_skip {content : String} (s : DispatchResult)
    (h : content ≠ "!getusers") : blockGetusers content s = .ok s := by
  simp [blockGetusers, h]

lemma blockGametotal_skip {content : String} (s : DispatchResult)
    (h : hasLead content "!gametotal" = false) :
    blockGametotal content s = .ok s := by
  simp [blockGametotal, h]

lemma blockUsertotal_skip {content : String} (s : DispatchResult)
    (h : hasLead content "!usertotal" = false) :
    blockUsertotal content s = .ok s := by
  simp [blockUsertotal, h]

lemma ne_of_hasLead {content kw : String} (lit : String)
    (h : hasLead content kw = true) (hlit : hasLead lit kw = false) :
    content ≠ lit := by
  intro hc
  rw [hc, hlit] at h
  cases h

/-- C7 counterexample: the line `!adduserX A B 5` has first token
`!adduserX`, which is not one of the fixed command keywords, yet the
dispatcher, which matches with `starts_with` rather than comparing the
first token, runs the adduser handler and issues a store call. -/
theorem dispatcher_first_token_counterexample :
    (parse_command_with_quotes "!adduserX A B 5").getD 0 "" = "!adduserX"
    ∧ "!adduserX" ∉ commandKeywords
    ∧ (message [] "!adduserX A B 5").calls = [StoreCall.addUserC "A" "B" "5"] :=
  ⟨by decide, by decide, by decide⟩

/-- C7 (amended): the dispatcher runs a handler only when the message text
passes one of the keyword tests it actually performs: equality with
`!help`, `!commands`, `!quickhelp` or `!getusers`, or `starts_with` one of
the other eight keywords.  A message that passes none of the tests produces
no reply, no store call, and leaves the collection unchanged.  (Matching is
by prefix, not by first token, so a line whose first token merely extends a
keyword still triggers that handler.) -/
theorem dispatcher_unrecognized_is_noop :
    ∀ (users : List User) (content : String),
      content ≠ "!help" → content ≠ "!commands" → content ≠ "!quickhelp" →
      content ≠ "!getusers" →
      hasLead content "!adduser" = false →
      hasLead content "!addgame" = false →
      hasLead content "!updatetotal" = false →
      hasLead content "!removegame" = false →
      hasLead content "!deleteuser" = false →
      hasLead content "!usergames" = false →
      hasLead content "!gametotal" = false →
      hasLead content "!usertotal" = false →
      message users content = ⟨[], [], users⟩ := by
  intro users content h1 h2 h3 h4 ha hb hc hd he hf hg hh
  simp only [message, dispatchChain, blockHelp_skip _ h1 h2,
    blockQuickhelp_skip _ h3, blockAdduser_skip _ ha, blockAddgame_skip _ hb,
    blockUpdatetotal_skip _ hc, blockRemovegame_skip _ hd,
    blockDeleteuser_skip _ he, blockUsergames_skip _ hf,
    blockGetusers_skip _ h4, blockGametotal_skip _ hg,
    blockUsertotal_skip _ hh, except_ok_bind]

/-- C7 witness: an ordinary chat line produces no reply and no store call. -/
theorem dispatcher_unrecognized_is_noop_witness :
    message [] "hello there" = ⟨[], [], []⟩ :=
  dispatcher_unrecognized_is_noop [] "hello there" (by decide) (by decide)
    (by decide) (by decide) (by decide) (by decide) (by decide) (by decide)
    (by decide) (by decide) (by decide) (by decide)

/-- C8: for every message matching a command keyword whose token count
differs from that command's expected arity, the dispatcher replies with
that command's usage string only, makes no store call, and leaves the
collection unchanged. -/
theorem dispatcher_arity_mismatch_usage :
    (∀ (users : List User) (content : String),
        hasLead content "!adduser" = true →
        (parse_command_with_quotes content).length ≠ 4 →
        message users content
          = ⟨[Reply.say "Usage: !adduser <username> \"<game name>\" <total>"], [], users⟩)
    ∧ (∀ (users : List User) (content : String),
        hasLead content "!addgame" = true →
        (parse_command_with_quotes content).length ≠ 4 →
        message users content
          = ⟨[Reply.say "Usage: !addgame <username> \"<game name>\" <starting_total>"], [], users⟩)
    ∧ (∀ (users : List User) (content : String),
        hasLead content "!updatetotal" = true →
        (parse_command_with_quotes content).length ≠ 4 →
        message users content
          = ⟨[Reply.say "Usage: !updatetotal <username> \"<game name>\" <additional_amount>"], [], users⟩)
    ∧ (∀ (users : List User) (content : String),
        hasLead content "!removegame" = true →
        (parse_command_with_quotes content).length ≠ 3 →
        message users content
          = ⟨[Reply.say "Usage: !removegame <username> \"<game name>\""], [], users⟩)
    ∧ (∀ (users : List User) (content : String),
        hasLead content "!deleteuser" = true →
        (parse_command_with_quotes content).length ≠ 2 →
        message users content
          = ⟨[Reply.say "Usage: !deleteuser <username>"], [], users⟩)
    ∧ (∀ (users : List User) (content : String),
        hasLead content "!usergames" = true →
        (parse_command_with_quotes content).length ≠ 2 →
        message users content
          = ⟨[Reply.say "Usage: !usergames <username>"], [], users⟩)
    ∧ (∀ (users : List User) (content : String),
        hasLead content "!gametotal" = true →
        (parse_command_with_quotes content).length ≠ 3 →
        message users content
          = ⟨[Reply.say "Usage: !gametotal <username> \"<game>\""], [], users⟩)
    ∧ (∀ (users : List User) (content : String),
        hasLead content "!usertotal" = true →
        (parse_command_with_quotes content).length ≠ 2 →
        message users content
          = ⟨[Reply.say "Usage: !usertotal <username>"], [], users⟩) := by
  refine ⟨?_, ?_, ?_, ?_, ?_, ?_, ?_, ?_⟩
  · intro users content h hlen
    have h1 : content ≠ "!help" := ne_of_hasLead _ h (by decide)
    have h2 : content ≠ "!commands" := ne_of_hasLead _ h (by decide)
    have h3 : content ≠ "!quickhelp" := ne_of_hasLead _ h (by decide)
    simp only [message, dispatchChain, blockHelp_skip _ h1 h2,
      blockQuickhelp_skip _ h3, except_ok_bind]
    simp [blockAdduser, h, hlen, except_error_bind]
  · intro users content h hlen
    have h1 : content ≠ "!help" := ne_of_hasLead _ h (by decide)
    have h2 : content ≠ "!commands" := ne_of_hasLead _ h (by decide)
    have h3 : content ≠ "!quickhelp" := ne_of_hasLead _ h (by decide)
    have hs1 : hasLead content "!adduser" = false := hasLead_excl h (by decide) (by decide)
    simp only [message, dispatchChain, blockHelp_skip _ h1 h2,
      blockQuickhelp_skip _ h3,
      blockAdduser_skip _ hs1, except_ok_bind]
    simp [blockAddgame, h, hlen, except_error_bind]
  · intro users content h hlen
    have h1 : content ≠ "!help" := ne_of_hasLead _ h (by decide)
    have h2 : content ≠ "!commands" := ne_of_hasLead _ h (by decide)
    have h3 : content ≠ "!quickhelp" := ne_of_hasLead _ h (by decide)
    have hs1 : hasLead content "!adduser" = false := hasLead_excl h (by decide) (by decide)
    have hs2 : hasLead content "!addgame" = false := hasLead_excl h (by decide) (by decide)
    simp only [message, dispatchChain, blockHelp_skip _ h1 h2,
      blockQuickhelp_skip _ h3,
      blockAdduser_skip _ hs1,
      blockAddgame_skip _ hs2, except_ok_bind]
    simp [blockUpdatetotal, h, hlen, except_error_bind]
  · intro users content h hlen
    have h1 : content ≠ "!help" := ne_of_hasLead _ h (by decide)
    have h2 : content ≠ "!commands" := ne_of_hasLead _ h (by decide)
    have h3 : content ≠ "!quickhelp" := ne_of_hasLead _ h (by decide)
    have hs1 : hasLead content "!adduser" = false := hasLead_excl h (by decide) (by decide)
    have hs2 : hasLead content "!addgame" = false := hasLead_excl h (by decide) (by decide)
    have hs3 : hasLead content "!updatetotal" = false := hasLead_excl h (by decide) (by decide)
    simp only [message, dispatchChain, blockHelp_skip _ h1 h2,
      blockQuickhelp_skip _ h3,
      blockAdduser_skip _ hs1,
      blockAddgame_skip _ hs2,
      blockUpdatetotal_skip _ hs3, except_ok_bind]
    simp [blockRemovegame, h, hlen, except_error_bind]
  · intro users content h hlen
    have h1 : content ≠ "!help" := ne_of_hasLead _ h (by decide)
    have h2 : content ≠ "!commands" := ne_of_hasLead _ h (by decide)
    have h3 : content ≠ "!quickhelp" := ne_of_hasLead _ h (by decide)
    have hs1 : hasLead content "!adduser" = false := hasLead_excl h (by decide) (by decide)
    have hs2 : hasLead content "!addgame" = false := hasLead_excl h (by decide) (by decide)
    have hs3 : hasLead content "!updatetotal" = false := hasLead_excl h (by decide) (by decide)
    have hs4 : hasLead content "!removegame" = false := hasLead_excl h (by decide) (by decide)
    simp only [message, dispatchChain, blockHelp_skip _ h1 h2,
      blockQuickhelp_skip _ h3,
      blockAdduser_skip _ hs1,
      blockAddgame_skip _ hs2,
      blockUpdatetotal_skip _ hs3,
      blockRemovegame_skip _ hs4, except_ok_bind]
    simp [blockDeleteuser, h, hlen, except_error_bind]
  · intro users content h hlen
    have h1 : content ≠ "!help" := ne_of_hasLead _ h (by decide)
    have h2 : content ≠ "!commands" := ne_of_hasLead _ h (by decide)
    have h3 : content ≠ "!quickhelp" := ne_of_hasLead _ h (by decide)
    have hs1 : hasLead content "!adduser" = false := hasLead_excl h (by decide) (by decide)
    have hs2 : hasLead content "!addgame" = false := hasLead_excl h (by decide) (by decide)
    have hs3 : hasLead content "!updatetotal" = false := hasLead_excl h (by decide) (by decide)
    have hs4 : hasLead content "!removegame" = false := hasLead_excl h (by decide) (by decide)
    have hs5 : hasLead content "!deleteuser" = false := hasLead_excl h (by decide) (by decide)
    simp only [message, dispatchChain, blockHelp_skip _ h1 h2,
      blockQuickhelp_skip _ h3,
      blockAdduser_skip _ hs1,
      blockAddgame_skip _ hs2,
      blockUpdatetotal_skip _ hs3,
      blockRemovegame_skip _ hs4,
      blockDeleteuser_skip _ hs5, except_ok_bind]
    simp [blockUsergames, h, hlen, except_error_bind]
  · intro users content h hlen
    have h1 : content ≠ "!help" := ne_of_hasLead _ h (by decide)
    have h2 : content ≠ "!commands" := ne_of_hasLead _ h (by decide)
    have h3 : content ≠ "!quickhelp" := ne_of_hasLead _ h (by decide)
    have hs1 : hasLead content "!adduser" = false := hasLead_excl h (by decide) (by decide)
    have hs2 : hasLead content "!addgame" = false := hasLead_excl h (by decide) (by decide)
    have hs3 : hasLead content "!updatetotal" = false := hasLead_excl h (by decide) (by decide)
    have hs4 : hasLead content "!removegame" = false := hasLead_excl h (by decide) (by decide)
    have hs5 : hasLead content "!deleteuser" = false := hasLead_excl h (by decide) (by decide)
    have hs6 : hasLead content "!usergames" = false := hasLead_excl h (by decide) (by decide)
    have hs7 : content ≠ "!getusers" := ne_of_hasLead _ h (by decide)
    simp only [message, dispatchChain, blockHelp_skip _ h1 h2,
      blockQuickhelp_skip _ h3,
      blockAdduser_skip _ hs1,
      blockAddgame_skip _ hs2,
      blockUpdatetotal_skip _ hs3,
      blockRemovegame_skip _ hs4,
      blockDeleteuser_skip _ hs5,
      blockUsergames_skip _ hs6,
      blockGetusers_skip _ hs7, except_ok_bind]
    simp [blockGametotal, h, hlen, except_error_bind]
  · intro users content h hlen
    have h1 : content ≠ "!help" := ne_of_hasLead _ h (by decide)
    have h2 : content ≠ "!commands" := ne_of_hasLead _ h (by decide)
    have h3 : content ≠ "!quickhelp" := ne_of_hasLead _ h (by decide)
    have hs1 : hasLead content "!adduser" = false := hasLead_excl h (by decide) (by decide)
    have hs2 : hasLead content "!addgame" = false := hasLead_excl h (by decide) (by decide)
    have hs3 : hasLead content "!updatetotal" = false := hasLead_excl h (by decide) (by decide)
    have hs4 : hasLead content "!removegame" = false := hasLead_excl h (by decide) (by decide)
    have hs5 : hasLead content "!deleteuser" = false := hasLead_excl h (by decide) (by decide)
    have hs6 : hasLead content "!usergames" = false := hasLead_excl h (by decide) (by decide)
    have hs7 : content ≠ "!getusers" := ne_of_hasLead _ h (by decide)
    have hs8 : hasLead content "!gametotal" = false := hasLead_excl h (by decide) (by decide)
    simp only [message, dispatchChain, blockHelp_skip _ h1 h2,
      blockQuickhelp_skip _ h3,
      blockAdduser_skip _ hs1,
      blockAddgame_skip _ hs2,
      blockUpdatetotal_skip _ hs3,
      blockRemovegame_skip _ hs4,
      blockDeleteuser_skip _ hs5,
      blockUsergames_skip _ hs6,
      blockGetusers_skip _ hs7,
      blockGametotal_skip _ hs8, except_ok_bind]
    simp [blockUsertotal, h, hlen, except_error_bind]

/-- C8 witness: each bare command keyword (one token, wrong arity) yields
exactly its usage reply and no store call. -/
theorem dispatcher_arity_mismatch_usage_witness :
    message [] "!adduser"
        = ⟨[Reply.say "Usage: !adduser <username> \"<game name>\" <total>"], [], []⟩
    ∧ message [] "!addgame"
        = ⟨[Reply.say "Usage: !addgame <username> \"<game name>\" <starting_total>"], [], []⟩
    ∧ message [] "!updatetotal"
        = ⟨[Reply.say "Usage: !updatetotal <username> \"<game name>\" <additional_amount>"], [], []⟩
    ∧ message [] "!removegame"
        = ⟨[Reply.say "Usage: !removegame <username> \"<game name>\""], [], []⟩
    ∧ message [] "!deleteuser"
        = ⟨[Reply.say "Usage: !deleteuser <username>"], [], []⟩
    ∧ message [] "!usergames"
        = ⟨[Reply.say "Usage: !usergames <username>"], [], []⟩
    ∧ message [] "!gametotal"
        = ⟨[Reply.say "Usage: !gametotal <username> \"<game>\""], [], []⟩
    ∧ message [] "!usertotal"
        = ⟨[Reply.say "Usage: !usertotal <username>"], [], []⟩ :=
  ⟨dispatcher_arity_mismatch_usage.1 [] "!adduser" (by decide) (by decide),
   dispatcher_arity_mismatch_usage.2.1 [] "!addgame" (by decide) (by decide),
   dispatcher_arity_mismatch_usage.2.2.1 [] "!updatetotal" (by decide) (by decide),
   dispatcher_arity_mismatch_usage.2.2.2.1 [] "!removegame" (by decide) (by decide),
   dispatcher_arity_mismatch_usage.2.2.2.2.1 [] "!deleteuser" (by decide) (by decide),
   dispatcher_arity_mismatch_usage.2.2.2.2.2.1 [] "!usergames" (by decide) (by decide),
   dispatcher_arity_mismatch_usage.2.2.2.2.2.2.1 [] "!gametotal" (by decide) (by decide),
   dispatcher_arity_mismatch_usage.2.2.2.2.2.2.2 [] "!usertotal" (by decide) (by decide)⟩
